import Mathlib

/-!
Shallow embedding of `src/struct_level.go` of StevanMokranjac/validator:
the struct-level capability surface of the validation engine.

Reflected Go values are modelled by the inductive `RValue` (pointers,
possibly nil, over a few base kinds, plus the zero `reflect.Value`);
the per-run mutable context `*validate` is modelled by the structure
`validate`, and the two reporting operations are pure state transformers
returning `Option validate`, where `none` models a Go panic.
-/

namespace Validator

/-- Model of `reflect.Kind`, restricted to the kinds the embedding uses. -/
inductive RKind where
  | invalid
  | ptr
  | str
  | int
  | bool
  deriving DecidableEq

/-- Model of `reflect.Value`: the zero (invalid) value, pointers (a nil
pointer or a pointer to a value), and a few concrete base values. -/
inductive RValue where
  | invalid : RValue
  | ptrNil : RValue
  | ptr : RValue → RValue
  | str : String → RValue
  | int : Int → RValue
  | bool : Bool → RValue
  deriving DecidableEq

/-- The `reflect.Kind` of a modelled value. -/
def RValue.kindOf : RValue → RKind
  | .invalid => .invalid
  | .ptrNil => .ptr
  | .ptr _ => .ptr
  | .str _ => .str
  | .int _ => .int
  | .bool _ => .bool

/-- Model of `reflect.Value.Interface()`: reading the zero (invalid)
reflected value panics in Go, modelled by `none`. -/
def RValue.interfaceV : RValue → Option RValue
  | .invalid => none
  | v => some v

/-- Model of `reflect.Value.Type()`: panics (is `none`) on the zero value;
the runtime type is modelled by the kind. -/
def RValue.typeOf : RValue → Option RKind
  | .invalid => none
  | v => some v.kindOf

/-- Modelled from the spec: `extractTypeInternal` lives in `util.go`, which is
not under `src/` (only its caller `ExtractType` is). Per the spec it
dereferences through pointer indirection, a nil pointer yields the zero
value with kind invalid and nullable true, and a non-pointer value is
returned unchanged with its own kind; `nullable` records whether a pointer
was unwrapped. Custom-type unwrapping (registry-based) is outside the
modelled value universe. -/
def extractTypeInternal : RValue → Bool → RValue × RKind × Bool
  | .ptrNil, _ => (.invalid, .invalid, true)
  | .ptr x, _ => extractTypeInternal x true
  | .invalid, nullable => (.invalid, .invalid, nullable)
  | v, nullable => (v, v.kindOf, nullable)

/-- Model of the concrete `*fieldError` record (`errors.go`). `value` and
`typ` are `Option`s: `none` models a field left unset. -/
structure fieldError where
  tag : String
  actualTag : String
  ns : String
  structNs : String
  field : String
  structField : String
  param : String
  kind : RKind
  value : Option RValue := none
  typ : Option RKind := none
  deriving DecidableEq

/-- Model of the `FieldError` interface: a `ValidationErrors` element is
either the concrete `*fieldError` or some other implementation of the
interface (carrying an arbitrary description). -/
inductive FieldErrorIface where
  | fe : fieldError → FieldErrorIface
  | other : String → FieldErrorIface
  deriving DecidableEq

/-- Model of the per-run context `*validate` (the fields `struct_level.go`
reads and writes). -/
structure validate where
  top : RValue
  slflParent : RValue
  slCurrent : RValue
  slNs : String
  slStructNs : String
  errs : List fieldError
  deriving DecidableEq

/-- `Top` returns the top level struct. -/
def validate.Top (v : validate) : RValue :=
  v.top

/-- `Parent` returns the current structs parent. -/
def validate.Parent (v : validate) : RValue :=
  v.slflParent

/-- `Current` returns the current struct. -/
def validate.Current (v : validate) : RValue :=
  v.slCurrent

/-- `ExtractType` gets the actual underlying type of field value. -/
def validate.ExtractType (_v : validate) (field : RValue) : RValue × RKind × Bool :=
  extractTypeInternal field false

/-- `ReportError` reports an error just by passing the field and tag
information. Mirrors the source: extract the kind, default `altName` to
`fieldName` when empty, append the names to the raw namespace buffers, then
append one `fieldError`; in the invalid-kind branch `value`/`typ` stay
unset, otherwise they are read from the extracted value (a read that would
panic is `none`). -/
def validate.ReportError (v : validate) (field : RValue)
    (fieldName altName0 tag : String) : Option validate :=
  let ext := extractTypeInternal field false
  let fv := ext.1
  let kind := ext.2.1
  let altName := if altName0.length = 0 then fieldName else altName0
  let ns := v.slNs ++ fieldName
  let nsActual := v.slStructNs ++ altName
  if kind = RKind.invalid then
    some { v with errs := v.errs ++
      [{ tag := tag, actualTag := tag, ns := ns, structNs := nsActual,
         field := fieldName, structField := altName, param := "",
         kind := kind }] }
  else
    match fv.interfaceV, fv.typeOf with
    | some value, some typ =>
        some { v with errs := v.errs ++
          [{ tag := tag, actualTag := tag, ns := ns, structNs := nsActual,
             field := fieldName, structField := altName, param := "",
             kind := kind, value := some value, typ := some typ }] }
    | _, _ => none

/-- The in-place rewrite `ReportValidationErrors` performs on one incoming
record: `err.ns = string(append(append(v.slNs, err.ns...), err.field...))`
and symmetrically for `structNs`. Note the source never consults the
`relativeNamespace` arguments here. -/
def rewriteFieldError (v : validate) (e : fieldError) : fieldError :=
  { e with
    ns := v.slNs ++ e.ns ++ e.field
    structNs := v.slStructNs ++ e.structNs ++ e.structField }

/-- `ReportValidationErrors` reports ValidationErrors obtained from running
validations within the Struct Level validation. Each element is downcast to
`*fieldError` (`none`, i.e. panic, on any other implementation), rewritten,
and appended. NOTE: the source body never reads `relativeNamespace` or
`relativeActualNamespace`. -/
def validate.ReportValidationErrors (v : validate)
    (relativeNamespace relativeActualNamespace : String)
    (errs : List FieldErrorIface) : Option validate :=
  match errs with
  | [] => some v
  | FieldErrorIface.fe e :: rest =>
      validate.ReportValidationErrors
        { v with errs := v.errs ++ [rewriteFieldError v e] }
        relativeNamespace relativeActualNamespace rest
  | FieldErrorIface.other _ :: _ => none

/-- A reporting call made by a struct-level callback during a run. -/
inductive Op where
  | report : RValue → String → String → String → Op
  | reportBatch : String → String → List FieldErrorIface → Op

/-- One reporting call applied to the context. -/
def step (v : validate) : Op → Option validate
  | .report f fn an tag => v.ReportError f fn an tag
  | .reportBatch r ra errs => v.ReportValidationErrors r ra errs

/-- A sequence of reporting calls applied in order. -/
def run (v : validate) : List Op → Option validate
  | [] => some v
  | op :: ops => (step v op).bind (fun v1 => run v1 ops)

/-- Nil reached through pointer indirection only (`*T` nil, `**T` whose
chain ends in nil, and so on). -/
def reachesNil : RValue → Bool
  | .ptrNil => true
  | .ptr x => reachesNil x
  | _ => false

/-- The record `ReportError` appends, written out in closed form (derived
characterization, proved equal to the operation below). -/
def reportedError (v : validate) (f : RValue) (fn an tag : String) : fieldError :=
  let ext := extractTypeInternal f false
  let altName := if an.length = 0 then fn else an
  { tag := tag, actualTag := tag, ns := v.slNs ++ fn,
    structNs := v.slStructNs ++ altName, field := fn, structField := altName,
    param := "", kind := ext.2.1,
    value := if ext.2.1 = RKind.invalid then none else some ext.1,
    typ := if ext.2.1 = RKind.invalid then none else some ext.1.kindOf }

/-- The kind returned by `extractTypeInternal` is the kind of the value it
returns. -/
theorem extractTypeInternal_kind (x : RValue) : ∀ b : Bool,
    (extractTypeInternal x b).2.1 = (extractTypeInternal x b).1.kindOf := by
  induction x with
  | invalid => intro b; rfl
  | ptrNil => intro b; rfl
  | ptr y ih => intro b; exact ih true
  | str s => intro b; rfl
  | int n => intro b; rfl
  | bool c => intro b; rfl

/-- Reading a value whose kind is not invalid is defined. -/
theorem interfaceV_typeOf_of_kind (v : RValue) (h : v.kindOf ≠ RKind.invalid) :
    v.interfaceV = some v ∧ v.typeOf = some v.kindOf := by
  cases v <;> simp [RValue.interfaceV, RValue.typeOf, RValue.kindOf] at h ⊢

/-- `ReportError` always succeeds and appends exactly the record described
by `reportedError`. -/
theorem reportError_spec (v : validate) (f : RValue) (fn an tag : String) :
    v.ReportError f fn an tag =
      some { v with errs := v.errs ++ [reportedError v f fn an tag] } := by
  by_cases hinv : (extractTypeInternal f false).2.1 = RKind.invalid
  · simp [validate.ReportError, reportedError, hinv]
  · have hk : (extractTypeInternal f false).1.kindOf ≠ RKind.invalid := by
      rw [← extractTypeInternal_kind]; exact hinv
    have h2 := interfaceV_typeOf_of_kind (extractTypeInternal f false).1 hk
    simp [validate.ReportError, reportedError, hinv, h2.1, h2.2,
      extractTypeInternal_kind f false, hk]

/-- The per-record rewrite only reads the namespace buffers of the context,
so updating the error list does not change it. -/
theorem rewriteFieldError_errs (v : validate) (X : List fieldError) :
    rewriteFieldError { v with errs := X } = rewriteFieldError v := rfl

/-- `ReportValidationErrors` on a batch of concrete `*fieldError` records
succeeds and appends the rewrites of the batch, in order. -/
theorem reportValidationErrors_fe (v : validate) (r ra : String)
    (errs : List fieldError) :
    v.ReportValidationErrors r ra (errs.map FieldErrorIface.fe) =
      some { v with errs := v.errs ++ errs.map (rewriteFieldError v) } := by
  induction errs generalizing v with
  | nil => simp [validate.ReportValidationErrors]
  | cons e rest ih =>
      simp only [List.map_cons, validate.ReportValidationErrors]
      rw [ih, rewriteFieldError_errs]
      simp
      intro a _
      rfl

/-- Whenever `ReportValidationErrors` returns (does not panic), it leaves
every context field but the error list unchanged and only appends. -/
theorem reportValidationErrors_frame (v w : validate) (r ra : String)
    (l : List FieldErrorIface)
    (h : v.ReportValidationErrors r ra l = some w) :
    w.top = v.top ∧ w.slflParent = v.slflParent ∧ w.slCurrent = v.slCurrent ∧
      w.slNs = v.slNs ∧ w.slStructNs = v.slStructNs ∧
      ∃ s, w.errs = v.errs ++ s := by
  induction l generalizing v with
  | nil =>
      simp only [validate.ReportValidationErrors, Option.some.injEq] at h
      subst h
      exact ⟨rfl, rfl, rfl, rfl, rfl, [], by simp⟩
  | cons e rest ih =>
      cases e with
      | fe e0 =>
          simp only [validate.ReportValidationErrors] at h
          obtain ⟨h1, h2, h3, h4, h5, s, hs⟩ := ih _ h
          refine ⟨h1, h2, h3, h4, h5, rewriteFieldError v e0 :: s, ?_⟩
          simpa using hs
      | other s0 =>
          simp [validate.ReportValidationErrors] at h

/-- Whenever `ReportError` returns, it leaves every context field but the
error list unchanged and appends exactly one record. -/
theorem reportError_frame (v w : validate) (f : RValue) (fn an tag : String)
    (h : v.ReportError f fn an tag = some w) :
    w.top = v.top ∧ w.slflParent = v.slflParent ∧ w.slCurrent = v.slCurrent ∧
      w.slNs = v.slNs ∧ w.slStructNs = v.slStructNs ∧
      ∃ s, w.errs = v.errs ++ s := by
  rw [reportError_spec] at h
  cases h
  exact ⟨rfl, rfl, rfl, rfl, rfl, [reportedError v f fn an tag], rfl⟩

/-- Any single reporting call preserves the position and namespace state and
only appends to the error list. -/
theorem step_frame (v w : validate) (op : Op) (h : step v op = some w) :
    w.top = v.top ∧ w.slflParent = v.slflParent ∧ w.slCurrent = v.slCurrent ∧
      w.slNs = v.slNs ∧ w.slStructNs = v.slStructNs ∧
      ∃ s, w.errs = v.errs ++ s := by
  cases op with
  | report f fn an tag => exact reportError_frame v w f fn an tag h
  | reportBatch r ra l => exact reportValidationErrors_frame v w r ra l h

/-- Any completed sequence of reporting calls only appends to the error
list. -/
theorem run_append (ops : List Op) : ∀ v w : validate,
    run v ops = some w → ∃ s, w.errs = v.errs ++ s := by
  induction ops with
  | nil =>
      intro v w h
      simp only [run, Option.some.injEq] at h
      subst h
      exact ⟨[], by simp⟩
  | cons op rest ih =>
      intro v w h
      simp only [run] at h
      cases hstep : step v op with
      | none => rw [hstep] at h; cases h
      | some v1 =>
          rw [hstep] at h
          obtain ⟨-, -, -, -, -, s1, hs1⟩ := step_frame v v1 op hstep
          obtain ⟨s2, hs2⟩ := ih v1 w h
          exact ⟨s1 ++ s2, by rw [hs2, hs1, List.append_assoc]⟩

/-- On any input whose pointer chain ends in nil, the extraction yields the
zero value, kind invalid and nullable true, for either initial flag. -/
theorem extractTypeInternal_nil (x : RValue) (h : reachesNil x = true) :
    ∀ b : Bool, extractTypeInternal x b = (RValue.invalid, RKind.invalid, true) := by
  induction x with
  | invalid => simp [reachesNil] at h
  | ptrNil => intro b; rfl
  | ptr y ih => intro b; exact ih (by simpa [reachesNil] using h) true
  | str s => simp [reachesNil] at h
  | int n => simp [reachesNil] at h
  | bool c => simp [reachesNil] at h

/-- C1: the claim says each merged error's final display namespace is the
current display namespace + relativeNamespace + the error's own namespace +
its field, and symmetrically for the struct namespace with
relativeActualNamespace. The source contradicts its own doc comment: the
body of `ReportValidationErrors` never reads either relative argument.
Evaluated at slNs = "A.", slStructNs = "S.", relativeNamespace = "B.",
relativeActualNamespace = "T." and one record with ns = "C", field = "D",
structNs = "U", structField = "V", the appended record gets namespace
"A.CD" (not the claimed "A.B.CD") and struct namespace "S.UV" (not the
claimed "S.T.UV"). -/
theorem c1_relative_namespace_ignored :
    validate.ReportValidationErrors
      { top := RValue.invalid, slflParent := RValue.invalid,
        slCurrent := RValue.invalid, slNs := "A.", slStructNs := "S.",
        errs := [] } "B." "T."
      [FieldErrorIface.fe
        { tag := "t", actualTag := "t", ns := "C", structNs := "U",
          field := "D", structField := "V", param := "",
          kind := RKind.str }] =
      some { top := RValue.invalid, slflParent := RValue.invalid,
             slCurrent := RValue.invalid, slNs := "A.", slStructNs := "S.",
             errs := [{ tag := "t", actualTag := "t", ns := "A.CD",
                        structNs := "S.UV", field := "D", structField := "V",
                        param := "", kind := RKind.str }] } ∧
      ("A.CD" : String) ≠ "A.B.CD" ∧ ("S.UV" : String) ≠ "S.T.UV" :=
  ⟨by decide, by decide, by decide⟩

/-- C2: for every field name and tag, `ReportError` appends exactly one
error, whose namespace is the current display namespace followed by "." and
the field name, or the field name alone when the display namespace is
empty. The engine outside src keeps the raw buffer slNs equal to the
display namespace plus a trailing dot when the namespace is nonempty
(modelled from the spec path grammar); under that invariant the raw
byte-append of the source produces exactly the claimed namespace. -/
theorem c2_reportError_namespace (v : validate) (dns : String) (f : RValue)
    (fn an tag : String)
    (h : v.slNs = if dns = "" then "" else dns ++ ".") :
    ∃ e, v.ReportError f fn an tag = some { v with errs := v.errs ++ [e] } ∧
      e.ns = if dns = "" then fn else dns ++ "." ++ fn := by
  refine ⟨reportedError v f fn an tag, reportError_spec v f fn an tag, ?_⟩
  by_cases hd : dns = ""
  · simp [reportedError, h, hd]
  · simp [reportedError, h, hd, String.append_assoc]

/-- C2 witness: at display namespace "User" (buffer "User."), reporting
field "Name" appends one error with namespace "User.Name". -/
theorem c2_witness :
    ∃ e, validate.ReportError
        { top := RValue.invalid, slflParent := RValue.invalid,
          slCurrent := RValue.invalid, slNs := "User.",
          slStructNs := "User.", errs := [] }
        (RValue.str "x") "Name" "" "required" =
      some { top := RValue.invalid, slflParent := RValue.invalid,
             slCurrent := RValue.invalid, slNs := "User.",
             slStructNs := "User.", errs := [] ++ [e] } ∧
      e.ns = if "User" = "" then "Name" else "User" ++ "." ++ "Name" :=
  c2_reportError_namespace
    { top := RValue.invalid, slflParent := RValue.invalid,
      slCurrent := RValue.invalid, slNs := "User.",
      slStructNs := "User.", errs := [] }
    "User" (RValue.str "x") "Name" "" "required" (by decide)

/-- C3: a batch of n concrete records appends exactly n errors, in batch
order, and a second call appends its batch after the first, in call
order. -/
theorem c3_batch_append_order (v : validate) (r1 ra1 r2 ra2 : String)
    (b1 b2 : List fieldError) :
    ∃ w1 w2,
      v.ReportValidationErrors r1 ra1 (b1.map FieldErrorIface.fe) = some w1 ∧
      w1.ReportValidationErrors r2 ra2 (b2.map FieldErrorIface.fe) = some w2 ∧
      w1.errs = v.errs ++ b1.map (rewriteFieldError v) ∧
      w2.errs = w1.errs ++ b2.map (rewriteFieldError w1) ∧
      w1.errs.length = v.errs.length + b1.length ∧
      w2.errs.length = w1.errs.length + b2.length := by
  refine ⟨_, _, reportValidationErrors_fe v r1 ra1 b1,
    reportValidationErrors_fe _ r2 ra2 b2, rfl, rfl, ?_, ?_⟩ <;>
    simp [Nat.add_assoc]

/-- C4: when the extracted kind of the input is invalid, `ReportError`
still returns (the operation is `some`, never the panic `none` that a read
of the invalid reflected value would produce) and the appended record has
kind invalid with `value` and `typ` left unset. -/
theorem c4_invalid_kind_guarded (v : validate) (f : RValue)
    (fn an tag : String)
    (h : (extractTypeInternal f false).2.1 = RKind.invalid) :
    ∃ e, v.ReportError f fn an tag = some { v with errs := v.errs ++ [e] } ∧
      e.kind = RKind.invalid ∧ e.value = none ∧ e.typ = none := by
  refine ⟨reportedError v f fn an tag, reportError_spec v f fn an tag,
    ?_, ?_, ?_⟩ <;> simp [reportedError, h]

/-- C4 witness: reporting a nil pointer field records one invalid-kind
error with value and type unset, without failing. -/
theorem c4_witness :
    ∃ e, validate.ReportError
        { top := RValue.invalid, slflParent := RValue.invalid,
          slCurrent := RValue.invalid, slNs := "", slStructNs := "",
          errs := [] } RValue.ptrNil "Name" "" "required" =
      some { top := RValue.invalid, slflParent := RValue.invalid,
             slCurrent := RValue.invalid, slNs := "", slStructNs := "",
             errs := [] ++ [e] } ∧
      e.kind = RKind.invalid ∧ e.value = none ∧ e.typ = none :=
  c4_invalid_kind_guarded
    { top := RValue.invalid, slflParent := RValue.invalid,
      slCurrent := RValue.invalid, slNs := "", slStructNs := "",
      errs := [] } RValue.ptrNil "Name" "" "required" (by decide)

/-- C5: on every nil pointer input, including nil reached through multiple
pointer indirections, `ExtractType` returns the zero value with kind
invalid and nullable true; the model is a total function, so no input can
make it panic. -/
theorem c5_extractType_nil_invalid (v : validate) (x : RValue)
    (h : reachesNil x = true) :
    v.ExtractType x = (RValue.invalid, RKind.invalid, true) :=
  extractTypeInternal_nil x h false

/-- C5 witness: a double pointer whose inner pointer is nil. -/
theorem c5_witness :
    validate.ExtractType
      { top := RValue.invalid, slflParent := RValue.invalid,
        slCurrent := RValue.invalid, slNs := "", slStructNs := "",
        errs := [] } (RValue.ptr RValue.ptrNil) =
      (RValue.invalid, RKind.invalid, true) :=
  c5_extractType_nil_invalid
    { top := RValue.invalid, slflParent := RValue.invalid,
      slCurrent := RValue.invalid, slNs := "", slStructNs := "",
      errs := [] } (RValue.ptr RValue.ptrNil) (by decide)

/-- C6 counterexample: the claim says the merge rewrites each record's
namespace, structNamespace and field fields to splice in the
caller-relative path. At slNs = "A.", relativeNamespace = "B." and a record
with ns = "C", field = "Email": the appended record's field is still
"Email" (the field field is not rewritten), and its namespace is "A.CEmail"
rather than the relative-spliced "A.B.CEmail", so the claim fails at this
input. -/
theorem c6_counterexample :
    validate.ReportValidationErrors
      { top := RValue.invalid, slflParent := RValue.invalid,
        slCurrent := RValue.invalid, slNs := "A.", slStructNs := "S.",
        errs := [] } "B." "T."
      [FieldErrorIface.fe
        { tag := "t", actualTag := "t", ns := "C", structNs := "U",
          field := "Email", structField := "V", param := "",
          kind := RKind.str }] =
      some { top := RValue.invalid, slflParent := RValue.invalid,
             slCurrent := RValue.invalid, slNs := "A.", slStructNs := "S.",
             errs := [{ tag := "t", actualTag := "t", ns := "A.CEmail",
                        structNs := "S.UV", field := "Email", structField := "V",
                        param := "", kind := RKind.str }] } ∧
      ¬ (("Email" : String) ≠ "Email") ∧
      ("A.CEmail" : String) ≠ "A.B.CEmail" :=
  ⟨by decide, by decide, by decide⟩

/-- C6 amended: each incoming record is rewritten exactly once and only its
namespace and structNamespace change, spliced from the context's current
buffers and the record's own suffix; the field field and every other field
(tag, actualTag, structField, param, kind, value, typ) are unchanged, and
the appended records are exactly the once-rewritten inputs. -/
theorem c6_rewrite_frame (v : validate) (r ra : String)
    (errs : List fieldError) :
    v.ReportValidationErrors r ra (errs.map FieldErrorIface.fe) =
      some { v with errs := v.errs ++ errs.map (rewriteFieldError v) } ∧
    ∀ w : validate, ∀ e : fieldError,
      (rewriteFieldError w e).tag = e.tag ∧
      (rewriteFieldError w e).actualTag = e.actualTag ∧
      (rewriteFieldError w e).field = e.field ∧
      (rewriteFieldError w e).structField = e.structField ∧
      (rewriteFieldError w e).param = e.param ∧
      (rewriteFieldError w e).kind = e.kind ∧
      (rewriteFieldError w e).value = e.value ∧
      (rewriteFieldError w e).typ = e.typ ∧
      (rewriteFieldError w e).ns = w.slNs ++ e.ns ++ e.field ∧
      (rewriteFieldError w e).structNs = w.slStructNs ++ e.structNs ++ e.structField :=
  ⟨reportValidationErrors_fe v r ra errs,
    fun _ _ => ⟨rfl, rfl, rfl, rfl, rfl, rfl, rfl, rfl, rfl, rfl⟩⟩

/-- C7: over any completed sequence of reporting calls, the error
collection only grows by appending: the entries present before are a
prefix, unchanged and in order, of the entries present after. -/
theorem c7_errs_monotone (v w : validate) (ops : List Op)
    (h : run v ops = some w) :
    ∃ s, w.errs = v.errs ++ s :=
  run_append ops v w h

/-- C7 witness: one ReportError call starting from an empty collection. -/
theorem c7_witness :
    ∃ s, ({ top := RValue.invalid, slflParent := RValue.invalid,
            slCurrent := RValue.invalid, slNs := "", slStructNs := "",
            errs := [{ tag := "required", actualTag := "required", ns := "Name",
                       structNs := "Name", field := "Name", structField := "Name",
                       param := "", kind := RKind.str, value := some (RValue.str "x"),
                       typ := some RKind.str }] } : validate).errs =
      ({ top := RValue.invalid, slflParent := RValue.invalid,
         slCurrent := RValue.invalid, slNs := "", slStructNs := "",
         errs := [] } : validate).errs ++ s :=
  c7_errs_monotone
    { top := RValue.invalid, slflParent := RValue.invalid,
      slCurrent := RValue.invalid, slNs := "", slStructNs := "",
      errs := [] }
    { top := RValue.invalid, slflParent := RValue.invalid,
      slCurrent := RValue.invalid, slNs := "", slStructNs := "",
      errs := [{ tag := "required", actualTag := "required", ns := "Name",
                 structNs := "Name", field := "Name", structField := "Name",
                 param := "", kind := RKind.str, value := some (RValue.str "x"),
                 typ := some RKind.str }] }
    [Op.report (RValue.str "x") "Name" "" "required"] (by decide)

/-- C8: when altName is empty, `ReportError` uses fieldName in its place:
the appended record's structField is fieldName and its struct namespace is
the current actual-namespace buffer followed by fieldName. -/
theorem c8_empty_altName_defaults (v : validate) (f : RValue)
    (fn tag : String) :
    ∃ e, v.ReportError f fn "" tag = some { v with errs := v.errs ++ [e] } ∧
      e.structField = fn ∧ e.structNs = v.slStructNs ++ fn := by
  refine ⟨reportedError v f fn "" tag, reportError_spec v f fn "" tag,
    ?_, ?_⟩ <;> simp [reportedError]

/-- C9: a reporting call (either operation) leaves the context's display
namespace, actual namespace, top, parent and current values exactly as they
were; only the error collection is extended. -/
theorem c9_context_frame (v w : validate) (op : Op)
    (h : step v op = some w) :
    w.slNs = v.slNs ∧ w.slStructNs = v.slStructNs ∧ w.top = v.top ∧
      w.slflParent = v.slflParent ∧ w.slCurrent = v.slCurrent ∧
      ∃ s, w.errs = v.errs ++ s := by
  obtain ⟨h1, h2, h3, h4, h5, hs⟩ := step_frame v w op h
  exact ⟨h4, h5, h1, h2, h3, hs⟩

/-- C9 witness: a ReportValidationErrors call with a nonempty batch leaves
every position and namespace field unchanged. -/
theorem c9_witness :
    ("A." : String) = "A." ∧ ("S." : String) = "S." ∧
      RValue.invalid = RValue.invalid ∧ RValue.invalid = RValue.invalid ∧
      RValue.invalid = RValue.invalid ∧
      ∃ s, [({ tag := "t", actualTag := "t", ns := "A.CD",
               structNs := "S.UV", field := "D", structField := "V", param := "",
               kind := RKind.str } : fieldError)] = [] ++ s :=
  c9_context_frame
    { top := RValue.invalid, slflParent := RValue.invalid,
      slCurrent := RValue.invalid, slNs := "A.", slStructNs := "S.",
      errs := [] }
    { top := RValue.invalid, slflParent := RValue.invalid,
      slCurrent := RValue.invalid, slNs := "A.", slStructNs := "S.",
      errs := [{ tag := "t", actualTag := "t", ns := "A.CD",
                 structNs := "S.UV", field := "D", structField := "V", param := "",
                 kind := RKind.str }] }
    (Op.reportBatch "B." "T."
      [FieldErrorIface.fe
        { tag := "t", actualTag := "t", ns := "C", structNs := "U",
          field := "D", structField := "V", param := "",
          kind := RKind.str }]) (by decide)

/-- C10: `ReportValidationErrors` completes on every batch of concrete
fieldError records, but the unchecked downcast makes it panic (modelled by
none) on a batch holding any other implementation of the FieldError
interface, without appending that error. -/
theorem c10_downcast_partiality (v : validate) (r ra : String)
    (b : List fieldError) :
    (∃ w, v.ReportValidationErrors r ra (b.map FieldErrorIface.fe) = some w) ∧
      v.ReportValidationErrors r ra
        [FieldErrorIface.other "custom FieldError implementation"] = none :=
  ⟨⟨_, reportValidationErrors_fe v r ra b⟩, rfl⟩

end Validator
